import Mathlib

/-!
Verification of the subnet-allocation core of TerraGen (`src/TerraGen.py`,
function `compute_subnet_cidrs`, lines 105-128).

The Python function takes a CIDR string and an availability-zone count,
parses the string with `ipaddress.ip_network` (strict mode, accepting both
IPv4 and IPv6), computes a target prefix length (clamped at /28), enumerates
the sub-blocks of the base at that prefix length and pairs them off into one
public and one private subnet per zone.  Failures are Python exceptions:
`ValueError` from parsing, from the explicit "VPC CIDR is too small" guard,
or from `net.subnets` when the new prefix is shorter than the base's, and an
`IndexError` from `subnets[i * 2]` when the list is too short.

This file embeds that function (and the parts of the standard `ipaddress`
module it relies on) as computable Lean definitions, and proves or refutes
the frozen specification claims about it.
-/

/-- Python exceptions that `compute_subnet_cidrs` can raise, one constructor
per raise site reached from the function:
* `valueErrorParse` - `ValueError` escaping `ipaddress.ip_network` (the input
  is not parseable as an IPv4 or IPv6 network, or has host bits set);
* `valueErrorTooSmall` - the explicit `raise ValueError("VPC CIDR is too
  small to be subdivided ...")` at line 118;
* `valueErrorNewPfx` - `ValueError('new prefix must be longer')` raised by
  `net.subnets` when `new_prefix < prefixlen`;
* `valueErrorPfxDiff` - `ValueError('prefix length diff ... is invalid')`
  raised by `net.subnets` when the new prefix exceeds `max_prefixlen`;
* `indexError` - `IndexError` from `subnets[i * 2]` / `subnets[i * 2 + 1]`. -/
inductive PyErr where
  | valueErrorParse
  | valueErrorTooSmall
  | valueErrorNewPfx
  | valueErrorPfxDiff
  | indexError
deriving DecidableEq

/-- An `ipaddress.IPv4Network` / `IPv6Network` value: address family
(4 or 6), network address as an integer, and prefix length. -/
structure IPNet where
  version : Nat
  addr : Nat
  prefixlen : Nat
deriving DecidableEq

deriving instance DecidableEq for Except

/-- `max_prefixlen` of the `ipaddress` classes: 32 for IPv4, 128 for IPv6. -/
def IPNet.max_prefixlen (n : IPNet) : Nat :=
  if n.version = 4 then 32 else 128

/-- Number of addresses in the block (`num_addresses`). -/
def IPNet.blockSize (n : IPNet) : Nat :=
  2 ^ (n.max_prefixlen - n.prefixlen)

/-- The integer address `a` lies in the block `n`. -/
def IPNet.containsAddr (n : IPNet) (a : Nat) : Prop :=
  n.addr ≤ a ∧ a < n.addr + n.blockSize

/-- Two blocks have empty address intersection. -/
def disjointBlocks (m n : IPNet) : Prop :=
  ∀ a : Nat, ¬ (m.containsAddr a ∧ n.containsAddr a)

/-- `m` is a sub-block of `n`: every address of `m` is an address of `n`. -/
def subBlockOf (m n : IPNet) : Prop :=
  ∀ a : Nat, m.containsAddr a → n.containsAddr a

/-- Well-formedness invariant maintained by the `ipaddress` constructors in
strict mode: the prefix length is in range, the address fits the family, and
the host bits are zero. -/
def IPNet.Valid (n : IPNet) : Prop :=
  n.prefixlen ≤ n.max_prefixlen ∧
  n.addr < 2 ^ n.max_prefixlen ∧
  n.addr % 2 ^ (n.max_prefixlen - n.prefixlen) = 0

instance (n : IPNet) : Decidable n.Valid := by
  unfold IPNet.Valid; infer_instance

/-- Fuel-driven helper for Python's `int.bit_length`: number of binary digits
of `n` (0 for 0).  The fuel only needs to be at least `n`. -/
def bitLenAux : Nat → Nat → Nat
  | 0, _ => 0
  | f + 1, n => if n = 0 then 0 else bitLenAux f (n / 2) + 1

/-- Python's `n.bit_length()` for a non-negative `n`. -/
def pyBitLength (n : Nat) : Nat := bitLenAux n n

/-- Python's `n.bit_length()` for an arbitrary integer: the sign is ignored
(`(-1).bit_length() == 1`). -/
def pyBitLengthInt (n : Int) : Nat := pyBitLength n.natAbs

/-- The expression `(total_subnets - 1).bit_length()` of line 113, with
`total_subnets = az_count * 2` from line 110. -/
def codeExtraBits (az_count : Int) : Nat :=
  pyBitLengthInt (az_count * 2 - 1)

/-- Lines 113-115: `new_prefix = net.prefixlen + (total_subnets - 1)
.bit_length()`, clamped to 28 when it exceeds 28. -/
def codeNewPrefixlen (net : IPNet) (az_count : Int) : Nat :=
  let np := net.prefixlen + codeExtraBits az_count
  if 28 < np then 28 else np

/-- The `k`-th sub-block yielded by the enumeration of `net.subnets`: the
generator walks `range(start, end, step)` with `start` the network address
and `step = 2^(max_prefixlen - new_prefixlen)`. -/
def enumBlock (net : IPNet) (new_prefixlen k : Nat) : IPNet :=
  ⟨net.version, net.addr + k * 2 ^ (net.max_prefixlen - new_prefixlen), new_prefixlen⟩

/-- `ipaddress._BaseNetwork.subnets(new_prefix=p)`, eagerly listed (the
Python code wraps the generator in `list(...)` at line 120).  CPython first
short-circuits when the block is a single address, then validates the new
prefix, then yields the blocks `addr + k * 2^(max_prefixlen - p)` for
`k = 0, 1, ...` covering the base block. -/
def IPNet.subnets (net : IPNet) (new_prefixlen : Nat) : Except PyErr (List IPNet) :=
  if net.prefixlen = net.max_prefixlen then .ok [net]
  else if new_prefixlen < net.prefixlen then .error .valueErrorNewPfx
  else if net.max_prefixlen < new_prefixlen then .error .valueErrorPfxDiff
  else .ok ((List.range (2 ^ (new_prefixlen - net.prefixlen))).map (enumBlock net new_prefixlen))

/-- Lines 122-126: the loop `for i in range(az_count)` appending
`subnets[i * 2]` and `subnets[i * 2 + 1]`; an out-of-range index raises
`IndexError`.  `i` is the current loop index, the second argument the number
of iterations still to run. -/
def pickLoopAux (sns : List IPNet) : Nat → Nat → Except PyErr (List IPNet × List IPNet)
  | _, 0 => .ok ([], [])
  | i, n + 1 =>
    match sns[i * 2]?, sns[i * 2 + 1]? with
    | some pub, some priv =>
      match pickLoopAux sns (i + 1) n with
      | .ok (ps, qs) => .ok (pub :: ps, priv :: qs)
      | .error e => .error e
    | _, _ => .error .indexError

/-! ## The `ipaddress` string parser

`compute_subnet_cidrs` calls `ipaddress.ip_network(vpc_cidr)` (line 107),
which tries `IPv4Network(address, strict=True)` and, if that raises an
`AddressValueError` or `NetmaskValueError`, falls back to
`IPv6Network(address, strict=True)`.  A plain `ValueError` (the strict-mode
"has host bits set" check) propagates immediately.  The definitions below
follow CPython's `Lib/ipaddress.py` on `List Char` so that they evaluate by
kernel reduction. -/

/-- Failure modes of the `IPv4Network` / `IPv6Network` constructors as seen
by `ip_network`: `caught` covers `AddressValueError` and
`NetmaskValueError` (which `ip_network` swallows before trying the next
family), `hostBits` the plain `ValueError('... has host bits set')` of
strict mode, which escapes `ip_network` directly. -/
inductive ParseFail where
  | caught
  | hostBits
deriving DecidableEq

/-- Python `str.split(sep)` for a one-character separator: always returns at
least one (possibly empty) piece. -/
def splitChar (c : Char) : List Char → List (List Char)
  | [] => [[]]
  | x :: xs =>
    if x = c then [] :: splitChar c xs
    else
      match splitChar c xs with
      | [] => [[x]]
      | g :: gs => (x :: g) :: gs

/-- Python `str.partition(sep)` for a one-character separator, used for the
IPv6 scope id: the part before the first `c`, and the remainder when `c`
occurs. -/
def partitionChar (c : Char) : List Char → List Char × Option (List Char)
  | [] => ([], none)
  | x :: xs =>
    if x = c then ([], some xs)
    else
      match partitionChar c xs with
      | (hd, tl) => (x :: hd, tl)

/-- An ASCII decimal digit (`str.isascii() and str.isdigit()` per char). -/
def isDecDigit (c : Char) : Bool := decide ('0' ≤ c ∧ c ≤ '9')

/-- An ASCII hexadecimal digit (CPython's `_HEX_DIGITS`). -/
def isHexDigit (c : Char) : Bool :=
  decide (('0' ≤ c ∧ c ≤ '9') ∨ ('a' ≤ c ∧ c ≤ 'f') ∨ ('A' ≤ c ∧ c ≤ 'F'))

/-- Numeric value of a hexadecimal digit. -/
def hexDigitVal (c : Char) : Nat :=
  if decide ('0' ≤ c ∧ c ≤ '9') then c.toNat - 48
  else if decide ('a' ≤ c ∧ c ≤ 'f') then c.toNat - 87
  else c.toNat - 55

/-- `int(s, 10)` on a string of decimal digits. -/
def digitsToNat (l : List Char) : Nat :=
  l.foldl (fun acc c => acc * 10 + (c.toNat - 48)) 0

/-- `int(s, 16)` on a string of hexadecimal digits. -/
def hexToNat (l : List Char) : Nat :=
  l.foldl (fun acc c => acc * 16 + hexDigitVal c) 0

/-- CPython `_BaseV4._parse_octet`: non-empty, ASCII decimal digits only, at
most 3 characters, no leading zero (except `"0"` itself), value at most
255. -/
def parseOctet (l : List Char) : Option Nat :=
  if l = [] then none
  else if l.all isDecDigit = false then none
  else if 3 < l.length then none
  else if l ≠ ['0'] ∧ l.headD '0' = '0' then none
  else if 255 < digitsToNat l then none
  else some (digitsToNat l)

/-- CPython `_BaseV4._ip_int_from_string`: exactly four octets joined by
dots. -/
def v4AddrFromChars (l : List Char) : Option Nat :=
  match splitChar '.' l with
  | [a, b, c, d] =>
    match parseOctet a, parseOctet b, parseOctet c, parseOctet d with
    | some w, some x, some y, some z => some (((w * 256 + x) * 256 + y) * 256 + z)
    | _, _, _, _ => none
  | _ => none

/-- CPython `_IPAddressBase._prefix_from_prefix_string`: ASCII decimal
digits only (so non-empty), value at most `maxLen`. -/
def pfxFromDigits (maxLen : Nat) (l : List Char) : Option Nat :=
  if l = [] then none
  else if l.all isDecDigit = false then none
  else if maxLen < digitsToNat l then none
  else some (digitsToNat l)

/-- CPython `_IPAddressBase._prefix_from_ip_int`: an IPv4 integer is a valid
netmask iff it consists of `p` leading one bits followed by zeros, in which
case the prefix is `p`. -/
def maskToPfx (m : Nat) : Option Nat :=
  (List.range 33).find? (fun p => decide (m = 2 ^ 32 - 2 ^ (32 - p)))

/-- CPython `IPv4Network._make_netmask` on a string argument: first try a
decimal prefix length, then an IPv4 address interpreted as a netmask, then
as a hostmask (its bitwise complement, here written as `2^32 - 1 - m`, a
valid netmask). -/
def v4MaskFromChars (l : List Char) : Option Nat :=
  match pfxFromDigits 32 l with
  | some p => some p
  | none =>
    match v4AddrFromChars l with
    | none => none
    | some m =>
      match maskToPfx m with
      | some p => some p
      | none => maskToPfx (2 ^ 32 - 1 - m)

/-- CPython `_split_addr_prefix` for string inputs: split on `/`; more than
one `/` is an `AddressValueError`; a missing prefix part means the family's
`max_prefixlen`. -/
def splitAddrMask (l : List Char) : Option (List Char × Option (List Char)) :=
  match splitChar '/' l with
  | [a] => some (a, none)
  | [a, m] => some (a, some m)
  | _ => none

/-- CPython `IPv4Network.__init__` with `strict=True` on a string input. -/
def ipv4NetworkOfChars (l : List Char) : Except ParseFail IPNet :=
  match splitAddrMask l with
  | none => .error .caught
  | some (a, m) =>
    match v4AddrFromChars a with
    | none => .error .caught
    | some ip =>
      match (match m with | none => some 32 | some ms => v4MaskFromChars ms) with
      | none => .error .caught
      | some p =>
        if ip % 2 ^ (32 - p) ≠ 0 then .error .hostBits
        else .ok ⟨4, ip, p⟩

/-- CPython `_BaseV6._parse_hextet`: hexadecimal digits only, at most 4 of
them; the final `int(s, 16)` rejects the empty string. -/
def parseHextet (l : List Char) : Option Nat :=
  if l.all isHexDigit = false then none
  else if 4 < l.length then none
  else if l = [] then none
  else some (hexToNat l)

/-- The accumulation loops of `_BaseV6._ip_int_from_string`:
`ip_int <<= 16; ip_int |= parse_hextet(part)` over a list of parts. -/
def hextetsVal : List (List Char) → Nat → Option Nat
  | [], acc => some acc
  | h :: t, acc =>
    match parseHextet h with
    | none => none
    | some v => hextetsVal t (acc * 65536 + v)

/-- Fuel-driven lowercase hexadecimal rendering (`'%x' % n`), used both for
the IPv4-in-IPv6 embedded hextets and for IPv6 string output. -/
def hexCharsAux : Nat → Nat → List Char
  | 0, _ => []
  | f + 1, n =>
    if n < 16 then [if n < 10 then Char.ofNat (48 + n) else Char.ofNat (87 + n)]
    else hexCharsAux f (n / 16) ++
      [if n % 16 < 10 then Char.ofNat (48 + n % 16) else Char.ofNat (87 + n % 16)]

/-- `'%x' % n`. -/
def hexChars (n : Nat) : List Char := hexCharsAux (n + 1) n

/-- CPython `_BaseV6._ip_int_from_string`.  The parts are split on `:`;
a trailing part containing a dot is parsed as an embedded IPv4 address and
replaced by its two hextets; at most one empty interior part (the `::`)
is allowed and stands for the missing zero hextets. -/
def v6AddrFromChars (l : List Char) : Option Nat :=
  let parts0 := splitChar ':' l
  if parts0.length < 3 then none
  else
    let partsOpt : Option (List (List Char)) :=
      match parts0.getLast? with
      | some lastP =>
        if lastP.contains '.' then
          match v4AddrFromChars lastP with
          | none => none
          | some v => some (parts0.dropLast ++ [hexChars (v / 65536), hexChars (v % 65536)])
        else some parts0
      | none => some parts0
    match partsOpt with
    | none => none
    | some parts =>
      if 9 < parts.length then none
      else
        let n := parts.length
        match (List.range n).filter (fun i => decide (0 < i ∧ i + 1 < n ∧ parts.getD i ['x'] = [])) with
        | _ :: _ :: _ => none
        | [i] =>
          let hiOpt : Option Nat :=
            if parts.headD ['x'] = [] then (if i - 1 = 0 then some (i - 1) else none)
            else some i
          let loOpt : Option Nat :=
            if parts.getLast? = some [] then (if n - i - 2 = 0 then some (n - i - 2) else none)
            else some (n - i - 1)
          match hiOpt, loOpt with
          | some hi, some lo =>
            if 8 - (hi + lo) < 1 then none
            else
              match hextetsVal (parts.take hi) 0 with
              | none => none
              | some vHi => hextetsVal (parts.drop (n - lo)) (vHi * 65536 ^ (8 - (hi + lo)))
          | _, _ => none
        | [] =>
          if n ≠ 8 then none
          else if parts.headD ['x'] = [] then none
          else if parts.getLast? = some [] then none
          else hextetsVal parts 0

/-- CPython `IPv6Address._parse_scope_id`: non-empty and without a `%`. -/
def scopeOk (s : List Char) : Bool :=
  decide (s ≠ [] ∧ s.contains '%' = false)

/-- CPython `IPv6Network.__init__` with `strict=True` on a string input; the
address part may carry a `%scope` suffix, and the prefix part only accepts a
decimal prefix length. -/
def ipv6NetworkOfChars (l : List Char) : Except ParseFail IPNet :=
  match splitAddrMask l with
  | none => .error .caught
  | some (a, m) =>
    match partitionChar '%' a with
    | (ap, sc) =>
      if (match sc with | none => false | some s => scopeOk s = false) then .error .caught
      else
        match v6AddrFromChars ap with
        | none => .error .caught
        | some ip =>
          match (match m with | none => some 128 | some ms => pfxFromDigits 128 ms) with
          | none => .error .caught
          | some p =>
            if ip % 2 ^ (128 - p) ≠ 0 then .error .hostBits
            else .ok ⟨6, ip, p⟩

/-- CPython `ipaddress.ip_network(s)` (strict): try IPv4, on
`AddressValueError`/`NetmaskValueError` try IPv6, otherwise raise
`ValueError`.  Every failure surfaces as a `ValueError`. -/
def ip_network (s : String) : Except PyErr IPNet :=
  match ipv4NetworkOfChars s.data with
  | .ok n => .ok n
  | .error .hostBits => .error .valueErrorParse
  | .error .caught =>
    match ipv6NetworkOfChars s.data with
    | .ok n => .ok n
    | .error _ => .error .valueErrorParse

/-! ## String rendering (`str(network)`) -/

/-- Fuel-driven decimal rendering (`'%d' % n`). -/
def decCharsAux : Nat → Nat → List Char
  | 0, _ => []
  | f + 1, n =>
    if n < 10 then [Char.ofNat (48 + n)]
    else decCharsAux f (n / 10) ++ [Char.ofNat (48 + n % 10)]

/-- `'%d' % n`. -/
def decChars (n : Nat) : List Char := decCharsAux (n + 1) n

/-- Python `sep.join(parts)` for a one-character separator. -/
def joinChar (c : Char) (parts : List (List Char)) : List Char :=
  (parts.intersperse [c]).flatten

/-- Dotted-quad rendering of an IPv4 address integer. -/
def v4AddrChars (ip : Nat) : List Char :=
  joinChar '.' [decChars (ip / 2 ^ 24 % 256), decChars (ip / 2 ^ 16 % 256),
    decChars (ip / 2 ^ 8 % 256), decChars (ip % 256)]

/-- The eight hextets of an IPv6 address integer, each rendered `'%x'`. -/
def v6Hextets (ip : Nat) : List (List Char) :=
  (List.range 8).map (fun i => hexChars (ip / 2 ^ (16 * (7 - i)) % 65536))

/-- The scan loop of CPython `_BaseV6._compress_hextets`, tracking the
current run of `"0"` hextets and the best (longest, leftmost) one seen so
far; `-1` is the Python sentinel for "no run". -/
def compressScan : List (List Char) → Nat → Int → Int → Int → Int → Int × Int
  | [], _, _, _, bs, bl => (bs, bl)
  | h :: t, idx, cs, cl, bs, bl =>
    if h = ['0'] then
      let cl' := cl + 1
      let cs' := if cs = -1 then (idx : Int) else cs
      if bl < cl' then compressScan t (idx + 1) cs' cl' cs' cl'
      else compressScan t (idx + 1) cs' cl' bs bl
    else compressScan t (idx + 1) (-1) 0 bs bl

/-- CPython `_BaseV6._compress_hextets`: replace the best run of zero
hextets (when longer than one) by an empty part, adding empty parts at the
ends so that the join produces `::`. -/
def compressHextets (hx : List (List Char)) : List (List Char) :=
  match compressScan hx 0 (-1) 0 (-1) 0 with
  | (bs, bl) =>
    if 1 < bl then
      let bsN := bs.toNat
      let beN := bsN + bl.toNat
      let ext := if beN = hx.length then hx ++ [[]] else hx
      let repl := ext.take bsN ++ [[]] ++ ext.drop beN
      if bsN = 0 then [] :: repl else repl
    else hx

/-- CPython `str(network)`: `'%s/%d' % (network_address, prefixlen)`, with
the compressed lowercase-hex form for IPv6 addresses. -/
def netToString (n : IPNet) : String :=
  if n.version = 4 then ⟨v4AddrChars n.addr ++ '/' :: decChars n.prefixlen⟩
  else ⟨joinChar ':' (compressHextets (v6Hextets n.addr)) ++ '/' :: decChars n.prefixlen⟩

/-- The body of `compute_subnet_cidrs` after parsing (lines 110-128),
returning the subnet blocks before their string rendering.  A negative
`az_count` makes `range(az_count)` empty, so the pick loop runs
`az_count.toNat` times. -/
def compute_core (net : IPNet) (az_count : Int) : Except PyErr (List IPNet × List IPNet) :=
  let np := codeNewPrefixlen net az_count
  if net.max_prefixlen < np then .error .valueErrorTooSmall
  else
    match net.subnets np with
    | .error e => .error e
    | .ok sns => pickLoopAux sns 0 az_count.toNat

/-- `compute_subnet_cidrs` (lines 105-128): parse the CIDR string, compute
the subnet blocks, and return their string renderings (`str(subnets[...])`,
lines 125-126). -/
def compute_subnet_cidrs (vpc_cidr : String) (az_count : Int) :
    Except PyErr (List String × List String) :=
  match ip_network vpc_cidr with
  | .error e => .error e
  | .ok net =>
    match compute_core net az_count with
    | .error e => .error e
    | .ok (pubs, privs) => .ok (pubs.map netToString, privs.map netToString)

/-- Did the call return without raising? -/
def okB {α : Type} (e : Except PyErr α) : Bool :=
  match e with
  | .ok _ => true
  | .error _ => false

/-- Spec-side definition of the extra prefix bits (spec section 4.1 step 2):
"the smallest integer such that `2^extraBits >= totalSubnets`".  Stated via
`Nat.find`, to be compared with the code's `(total_subnets - 1).bit_length()`
in the refinement claim C5. -/
def specExtraBits (total : Nat) : Nat :=
  Nat.find (⟨total, Nat.le_of_lt (Nat.lt_two_pow total)⟩ : ∃ e, total ≤ 2 ^ e)

/-! ## Lemmas about the bit-length computation -/

lemma bitLenAux_lt : ∀ fuel n : Nat, n ≤ fuel → n < 2 ^ bitLenAux fuel n := by
  intro fuel
  induction fuel with
  | zero =>
    intro n hn
    have hn0 : n = 0 := Nat.le_zero.mp hn
    subst hn0
    simp [bitLenAux]
  | succ f ih =>
    intro n hn
    by_cases h0 : n = 0
    · subst h0; simp [bitLenAux]
    · have hpos : 0 < n := Nat.pos_of_ne_zero h0
      have hdiv : n / 2 ≤ f := by
        have hhalf : n / 2 < n := Nat.div_lt_self hpos (by norm_num)
        omega
      have hrec := ih (n / 2) hdiv
      have hunf : bitLenAux (f + 1) n = bitLenAux f (n / 2) + 1 := by
        simp [bitLenAux, h0]
      rw [hunf, pow_succ]
      omega

lemma bitLenAux_le : ∀ fuel n m : Nat, n ≤ fuel → n < 2 ^ m → bitLenAux fuel n ≤ m := by
  intro fuel
  induction fuel with
  | zero => intro n m _ _; simp [bitLenAux]
  | succ f ih =>
    intro n m hn hm
    by_cases h0 : n = 0
    · subst h0; simp [bitLenAux]
    · have hpos : 0 < n := Nat.pos_of_ne_zero h0
      have hunf : bitLenAux (f + 1) n = bitLenAux f (n / 2) + 1 := by
        simp [bitLenAux, h0]
      rw [hunf]
      cases m with
      | zero => simp at hm; omega
      | succ m' =>
        have hdiv : n / 2 ≤ f := by
          have hhalf : n / 2 < n := Nat.div_lt_self hpos (by norm_num)
          omega
        have hm' : n / 2 < 2 ^ m' := by
          rw [pow_succ] at hm
          omega
        have := ih (n / 2) m' hdiv hm'
        omega

lemma pyBitLength_lt (n : Nat) : n < 2 ^ pyBitLength n :=
  bitLenAux_lt n n le_rfl

lemma pyBitLength_le (n m : Nat) (h : n < 2 ^ m) : pyBitLength n ≤ m :=
  bitLenAux_le n n m le_rfl h

lemma pyBitLength_pos (n : Nat) (h : 1 ≤ n) : 1 ≤ pyBitLength n := by
  unfold pyBitLength
  cases n with
  | zero => omega
  | succ k => simp [bitLenAux]

/-- After the clamp at lines 114-115 the new prefix never exceeds 28. -/
lemma codeNewPrefixlen_le (net : IPNet) (az : Int) : codeNewPrefixlen net az ≤ 28 := by
  simp only [codeNewPrefixlen]
  split <;> omega

lemma max_prefixlen_ge (net : IPNet) : 32 ≤ net.max_prefixlen := by
  unfold IPNet.max_prefixlen
  split <;> omega

/-! ## Lemmas about the pick loop -/

/-- Characterization of a successful run of the pick loop: the two lists
have one entry per iteration, taken from the subnet list at the even and
odd indices. -/
lemma pickLoopAux_ok (L : List IPNet) :
    ∀ n i ps qs, pickLoopAux L i n = .ok (ps, qs) →
      ps.length = n ∧ qs.length = n ∧
      ∀ j, j < n → ps[j]? = L[(i + j) * 2]? ∧ qs[j]? = L[(i + j) * 2 + 1]? := by
  intro n
  induction n with
  | zero =>
    intro i ps qs h
    simp only [pickLoopAux] at h
    injection h with h
    injection h with h1 h2
    subst h1; subst h2
    refine ⟨rfl, rfl, ?_⟩
    intro j hj; omega
  | succ n' ih =>
    intro i ps qs h
    simp only [pickLoopAux] at h
    cases hx : L[i * 2]? with
    | none => rw [hx] at h; simp at h
    | some pub =>
      cases hy : L[i * 2 + 1]? with
      | none => rw [hx, hy] at h; simp at h
      | some priv =>
        rw [hx, hy] at h
        cases hr : pickLoopAux L (i + 1) n' with
        | error e => rw [hr] at h; simp at h
        | ok pr =>
          obtain ⟨ps', qs'⟩ := pr
          rw [hr] at h
          simp only [Except.ok.injEq, Prod.mk.injEq] at h
          obtain ⟨h1, h2⟩ := h
          subst h1; subst h2
          obtain ⟨hl1, hl2, hidx⟩ := ih (i + 1) ps' qs' hr
          refine ⟨by simp [hl1], by simp [hl2], ?_⟩
          intro j hj
          cases j with
          | zero =>
            constructor
            · simpa using hx.symm
            · simpa using hy.symm
          | succ j' =>
            have hj' : j' < n' := by omega
            obtain ⟨ha, hb⟩ := hidx j' hj'
            have harith : (i + 1 + j') = (i + (j' + 1)) := by omega
            rw [harith] at ha hb
            constructor
            · simpa using ha
            · simpa using hb

/-- One-step unfolding of the pick loop. -/
lemma pickLoopAux_succ (L : List IPNet) (i n : Nat) :
    pickLoopAux L i (n + 1) =
      match L[i * 2]?, L[i * 2 + 1]? with
      | some pub, some priv =>
        match pickLoopAux L (i + 1) n with
        | .ok (ps, qs) => .ok (pub :: ps, priv :: qs)
        | .error e => .error e
      | _, _ => .error .indexError := rfl

/-- When the subnet list is too short for the requested zone count, the pick
loop raises `IndexError`. -/
lemma pickLoopAux_fail (L : List IPNet) :
    ∀ n i, 1 ≤ n → L.length < (i + n) * 2 → pickLoopAux L i n = .error .indexError := by
  intro n
  induction n with
  | zero => intro i h; omega
  | succ n' ih =>
    intro i _ hlen
    cases n' with
    | zero =>
      rw [pickLoopAux_succ]
      have hodd : L[i * 2 + 1]? = none := List.getElem?_eq_none (by omega)
      rw [hodd]
      cases L[i * 2]? <;> rfl
    | succ n'' =>
      rw [pickLoopAux_succ]
      have hrec := ih (i + 1) (by omega) (by omega)
      rw [hrec]
      cases L[i * 2]? <;> cases L[i * 2 + 1]? <;> rfl

/-- The pick loop either returns a pair of lists or raises `IndexError`; in
particular it raises no `ValueError`. -/
lemma pickLoopAux_cases (L : List IPNet) :
    ∀ n i, (∃ pr, pickLoopAux L i n = .ok pr) ∨ pickLoopAux L i n = .error .indexError := by
  intro n
  induction n with
  | zero => intro i; exact Or.inl ⟨([], []), rfl⟩
  | succ n' ih =>
    intro i
    rw [pickLoopAux_succ]
    cases L[i * 2]? with
    | none => exact Or.inr rfl
    | some pub =>
      cases L[i * 2 + 1]? with
      | none => exact Or.inr rfl
      | some priv =>
        rcases ih (i + 1) with ⟨⟨ps, qs⟩, h⟩ | h
        · rw [h]
          exact Or.inl ⟨(pub :: ps, priv :: qs), rfl⟩
        · rw [h]
          exact Or.inr rfl

/-- `net.subnets` never raises the "VPC CIDR is too small" `ValueError`. -/
lemma subnets_ne_tooSmall (net : IPNet) (np : Nat) :
    net.subnets np ≠ .error .valueErrorTooSmall := by
  unfold IPNet.subnets
  split
  · simp
  · split
    · simp
    · split <;> simp

/-- Characterization of a successful `net.subnets` call on a block that is
not a single address. -/
lemma subnets_ok (net : IPNet) (np : Nat) (L : List IPNet)
    (hne : net.prefixlen ≠ net.max_prefixlen) (h : net.subnets np = .ok L) :
    net.prefixlen ≤ np ∧ np ≤ net.max_prefixlen ∧
    L = (List.range (2 ^ (np - net.prefixlen))).map (enumBlock net np) := by
  unfold IPNet.subnets at h
  rw [if_neg hne] at h
  by_cases h1 : np < net.prefixlen
  · rw [if_pos h1] at h; simp at h
  · rw [if_neg h1] at h
    by_cases h2 : net.max_prefixlen < np
    · rw [if_pos h2] at h; simp at h
    · rw [if_neg h2] at h
      injection h with h
      exact ⟨by omega, by omega, h.symm⟩

/-- A successful run of `compute_core` factors through a successful subnet
enumeration followed by a successful pick loop. -/
lemma compute_core_ok (net : IPNet) (az : Int) (ps qs : List IPNet)
    (h : compute_core net az = .ok (ps, qs)) :
    ∃ L, net.subnets (codeNewPrefixlen net az) = .ok L ∧
      pickLoopAux L 0 az.toNat = .ok (ps, qs) := by
  have h28 := codeNewPrefixlen_le net az
  have hmax := max_prefixlen_ge net
  simp only [compute_core] at h
  rw [if_neg (by omega)] at h
  cases hs : net.subnets (codeNewPrefixlen net az) with
  | error e => rw [hs] at h; simp at h
  | ok L =>
    rw [hs] at h
    exact ⟨L, rfl, h⟩

/-! ## Claims -/

/-- C4: for base `10.0.0.0/16` and `zoneCount = 2`, `compute_subnet_cidrs`
succeeds with `newPrefix = 18` (no clamp), public subnets
`[10.0.0.0/18, 10.0.128.0/18]` and private subnets
`[10.0.64.0/18, 10.0.192.0/18]` - zone `i` receives the enumeration's
sub-blocks at indices `2*i` and `2*i + 1`. -/
theorem claim_c4_concrete_plan :
    compute_subnet_cidrs "10.0.0.0/16" 2 =
      .ok (["10.0.0.0/18", "10.0.128.0/18"], ["10.0.64.0/18", "10.0.192.0/18"]) ∧
    codeNewPrefixlen ⟨4, 167772160, 16⟩ 2 = 18 := by
  constructor
  · decide
  · decide

/-- C8: the function is deterministic - two invocations with identical
arguments return identical results.  The source performs no I/O and reads no
global state, so it embeds as a pure function and determinism holds
definitionally. -/
theorem claim_c8_deterministic (s1 s2 : String) (az1 az2 : Int)
    (hs : s1 = s2) (ha : az1 = az2) :
    compute_subnet_cidrs s1 az1 = compute_subnet_cidrs s2 az2 := by
  rw [hs, ha]

/-- Witness for C8 at a concrete input: two identical calls agree. -/
theorem claim_c8_witness :
    compute_subnet_cidrs "10.0.0.0/16" 2 = compute_subnet_cidrs "10.0.0.0/16" 2 :=
  claim_c8_deterministic "10.0.0.0/16" "10.0.0.0/16" 2 2 rfl rfl

/-- C9: the error branch guarded by `new_prefix > net.max_prefixlen`
(line 117, raising "VPC CIDR is too small to be subdivided ...") is
unreachable on IPv4 inputs: the preceding clamp guarantees
`new_prefix <= 28 < 32`. -/
theorem claim_c9_guard_unreachable (net : IPNet) (az : Int) (hv : net.version = 4) :
    compute_core net az ≠ .error .valueErrorTooSmall := by
  have h28 := codeNewPrefixlen_le net az
  have hmax := max_prefixlen_ge net
  simp only [compute_core]
  rw [if_neg (by omega)]
  cases hs : net.subnets (codeNewPrefixlen net az) with
  | error e =>
    have he : e ≠ PyErr.valueErrorTooSmall := by
      intro hc
      subst hc
      exact subnets_ne_tooSmall net (codeNewPrefixlen net az) hs
    intro hc
    have hc' : (Except.error e : Except PyErr (List IPNet × List IPNet)) =
        .error PyErr.valueErrorTooSmall := hc
    injection hc' with hc'
    exact he hc'
  | ok L =>
    show pickLoopAux L 0 az.toNat ≠ .error .valueErrorTooSmall
    rcases pickLoopAux_cases L az.toNat 0 with ⟨pr, h⟩ | h <;> rw [h] <;> simp

/-- Witness for C9: the guard is not hit for `10.0.0.0/16` with 2 zones. -/
theorem claim_c9_witness :
    compute_core ⟨4, 167772160, 16⟩ 2 ≠ .error .valueErrorTooSmall :=
  claim_c9_guard_unreachable ⟨4, 167772160, 16⟩ 2 rfl

/-- C3 (counterexample): the claim says `zoneCount = 0` fails with
`InvalidZoneCount`, but the code performs no zone-count validation at all:
`zoneCount = 0` returns successfully with two empty subnet lists. -/
theorem claim_c3_counterexample :
    compute_subnet_cidrs "10.0.0.0/16" 0 = .ok ([], []) := rfl

/-- C3 (amended): for `zoneCount <= 0` and any base block whose prefix
length is at most 28, `compute_subnet_cidrs` does not fail at all - the
loop `for i in range(az_count)` runs zero times and the function returns an
empty plan.  No `InvalidZoneCount` error exists in the code. -/
theorem claim_c3_amended (net : IPNet) (az : Int) (haz : az ≤ 0)
    (hp : net.prefixlen ≤ 28) : compute_core net az = .ok ([], []) := by
  have h28 := codeNewPrefixlen_le net az
  have hmax := max_prefixlen_ge net
  have hge : net.prefixlen ≤ codeNewPrefixlen net az := by
    simp only [codeNewPrefixlen]
    split <;> omega
  simp only [compute_core]
  rw [if_neg (by omega)]
  simp only [IPNet.subnets]
  rw [if_neg (by omega : ¬ net.prefixlen = net.max_prefixlen),
    if_neg (by omega : ¬ codeNewPrefixlen net az < net.prefixlen),
    if_neg (by omega : ¬ net.max_prefixlen < codeNewPrefixlen net az)]
  have hz : az.toNat = 0 := by omega
  rw [hz]
  rfl

/-- Witness for C3 (amended) at `10.0.0.0/16` with `zoneCount = -2`. -/
theorem claim_c3_witness : compute_core ⟨4, 167772160, 16⟩ (-2) = .ok ([], []) :=
  claim_c3_amended ⟨4, 167772160, 16⟩ (-2) (by decide) (by decide)

/-- C2 (counterexample): for `10.0.0.0/24` with 64 zones the claim expects
the typed `BlockTooSmall` failure (the code's only "too small" error is the
`ValueError` of line 118), but the call actually dies with an `IndexError`
from `subnets[i * 2]` - there is no capacity check. -/
theorem claim_c2_counterexample :
    compute_subnet_cidrs "10.0.0.0/24" 64 = .error .indexError ∧
    PyErr.indexError ≠ PyErr.valueErrorTooSmall := by
  constructor
  · rfl
  · decide

/-- C2 (amended): whenever the enumeration at the clamped prefix succeeds
but yields fewer sub-blocks than `totalSubnets = 2 * zoneCount`, the
function fails - with an uncaught `IndexError` from the subnet list
indexing, not with a dedicated typed error. -/
theorem claim_c2_amended (net : IPNet) (az : Int) (L : List IPNet)
    (hv : net.version = 4) (haz : 1 ≤ az)
    (hsub : net.subnets (codeNewPrefixlen net az) = .ok L)
    (hlen : L.length < (az * 2).toNat) :
    compute_core net az = .error .indexError := by
  have h28 := codeNewPrefixlen_le net az
  have hmax := max_prefixlen_ge net
  simp only [compute_core]
  rw [if_neg (by omega), hsub]
  show pickLoopAux L 0 az.toNat = .error .indexError
  exact pickLoopAux_fail L az.toNat 0 (by omega) (by omega)

/-- Witness for C2 (amended): the `10.0.0.0/24` base with 64 zones (16
sub-blocks at the clamped /28 against 128 requested). -/
theorem claim_c2_witness : compute_core ⟨4, 167772160, 24⟩ 64 = .error .indexError :=
  claim_c2_amended ⟨4, 167772160, 24⟩ 64 _ rfl (by decide) rfl (by decide)

/-- C7 (counterexample): the claim quantifies over every input on which the
call succeeds, but a negative `zoneCount` also succeeds (range(-1) is
empty), returning empty lists whose length is not the zone count. -/
theorem claim_c7_counterexample :
    compute_subnet_cidrs "10.0.0.0/16" (-1) = .ok ([], []) ∧
    ¬ ((([] : List String).length : Int) = -1) := by
  constructor
  · rfl
  · decide

/-- Inversion of a successful `compute_subnet_cidrs` call: the parse and
the core computation succeeded, and the output lists are the rendered
blocks. -/
lemma compute_subnet_cidrs_ok_elim (s : String) (az : Int) (pubs privs : List String)
    (h : compute_subnet_cidrs s az = .ok (pubs, privs)) :
    ∃ net ps qs, ip_network s = .ok net ∧ compute_core net az = .ok (ps, qs) ∧
      pubs = ps.map netToString ∧ privs = qs.map netToString := by
  unfold compute_subnet_cidrs at h
  cases hp : ip_network s with
  | error e => rw [hp] at h; simp at h
  | ok net =>
    rw [hp] at h
    have h' : (match compute_core net az with
        | .error e => .error e
        | .ok (ps, qs) => .ok (ps.map netToString, qs.map netToString)) =
          Except.ok (pubs, privs) := h
    cases hc : compute_core net az with
    | error e => rw [hc] at h'; simp at h'
    | ok pr =>
      obtain ⟨ps, qs⟩ := pr
      rw [hc] at h'
      have h'' : Except.ok (ps.map netToString, qs.map netToString) =
          Except.ok (pubs, privs) := h'
      simp only [Except.ok.injEq, Prod.mk.injEq] at h''
      exact ⟨net, ps, qs, rfl, hc, h''.1.symm, h''.2.symm⟩

/-- C7 (amended): on success both returned lists have length
`max(zoneCount, 0)` (which equals `zoneCount` whenever `zoneCount >= 0`,
in particular for every `zoneCount >= 1`). -/
theorem claim_c7_amended (s : String) (az : Int) (pubs privs : List String)
    (h : compute_subnet_cidrs s az = .ok (pubs, privs)) :
    pubs.length = az.toNat ∧ privs.length = az.toNat := by
  obtain ⟨net, ps, qs, hp, hc, h1, h2⟩ := compute_subnet_cidrs_ok_elim s az pubs privs h
  obtain ⟨L, hsub, hpick⟩ := compute_core_ok net az ps qs hc
  obtain ⟨hl1, hl2, _⟩ := pickLoopAux_ok L az.toNat 0 ps qs hpick
  constructor
  · rw [h1, List.length_map, hl1]
  · rw [h2, List.length_map, hl2]

/-- Witness for C7 (amended) at `10.0.0.0/16` with 2 zones. -/
theorem claim_c7_witness :
    (["10.0.0.0/18", "10.0.128.0/18"] : List String).length = (2 : Int).toNat ∧
    (["10.0.64.0/18", "10.0.192.0/18"] : List String).length = (2 : Int).toNat :=
  claim_c7_amended "10.0.0.0/16" 2 _ _ rfl

/-- C5: the code's `(total_subnets - 1).bit_length()` (line 113) equals the
spec's `extraBits`, the smallest `e` with `2^e >= totalSubnets`, for every
`zoneCount >= 1`. -/
theorem claim_c5_extraBits_refines (az : Int) (haz : 1 ≤ az) :
    codeExtraBits az = specExtraBits (az * 2).toNat := by
  have ht : 2 ≤ (az * 2).toNat := by omega
  have habs : (az * 2 - 1).natAbs = (az * 2).toNat - 1 := by omega
  have h1 : (az * 2).toNat - 1 < 2 ^ pyBitLength ((az * 2).toNat - 1) := pyBitLength_lt _
  symm
  unfold specExtraBits
  rw [Nat.find_eq_iff]
  constructor
  · show (az * 2).toNat ≤ 2 ^ codeExtraBits az
    unfold codeExtraBits pyBitLengthInt
    rw [habs]
    omega
  · intro k hk hle
    have hlek : pyBitLength ((az * 2).toNat - 1) ≤ k := pyBitLength_le _ _ (by omega)
    unfold codeExtraBits pyBitLengthInt at hk
    rw [habs] at hk
    omega

/-- Witness for C5 at `zoneCount = 3` (`totalSubnets = 6`, three extra
bits). -/
theorem claim_c5_witness : codeExtraBits 3 = specExtraBits ((3 : Int) * 2).toNat :=
  claim_c5_extraBits_refines 3 (by decide)

/-- Every error of `ip_network` is the parse `ValueError`. -/
lemma ip_network_err (s : String) (e : PyErr) (h : ip_network s = .error e) :
    e = .valueErrorParse := by
  unfold ip_network at h
  cases h4 : ipv4NetworkOfChars s.data with
  | ok n => rw [h4] at h; simp at h
  | error pf =>
    cases pf with
    | hostBits =>
      rw [h4] at h
      have h' : (Except.error PyErr.valueErrorParse : Except PyErr IPNet) = .error e := h
      injection h' with h'
      exact h'.symm
    | caught =>
      rw [h4] at h
      cases h6 : ipv6NetworkOfChars s.data with
      | ok n => rw [h6] at h; simp at h
      | error pf6 =>
        rw [h6] at h
        have h' : (Except.error PyErr.valueErrorParse : Except PyErr IPNet) = .error e := h
        injection h' with h'
        exact h'.symm

/-- C6 (counterexample): `2001::/16` is not parseable as an IPv4 CIDR
(`IPv4Network` raises an `AddressValueError`), yet `compute_subnet_cidrs`
accepts it via the IPv6 fallback of `ip_network` and returns a plan - a
non-IPv4 input producing a `SubnetPlan`, contradicting the claim. -/
theorem claim_c6_counterexample :
    ipv4NetworkOfChars ("2001::/16").data = .error .caught ∧
    okB (compute_subnet_cidrs "2001::/16" 2) = true := by
  constructor
  · rfl
  · rfl

/-- C6 (amended): any input rejected by `ip_network` (not parseable as an
IPv4 *or IPv6* network, or with non-zero host bits) makes
`compute_subnet_cidrs` fail with the parse `ValueError`; valid IPv6 CIDRs,
however, are accepted and can produce a plan. -/
theorem claim_c6_amended (s : String) (az : Int)
    (h : okB (ip_network s) = false) :
    compute_subnet_cidrs s az = .error .valueErrorParse := by
  unfold compute_subnet_cidrs
  cases hp : ip_network s with
  | ok n => rw [hp] at h; simp [okB] at h
  | error e =>
    have he := ip_network_err s e hp
    subst he
    rfl

/-- Witness for C6 (amended): `10.0.0.1/16` has host bits set, so parsing
fails and the function raises the parse `ValueError`. -/
theorem claim_c6_witness :
    okB (ip_network "10.0.0.1/16") = false ∧
    compute_subnet_cidrs "10.0.0.1/16" 2 = .error .valueErrorParse :=
  ⟨rfl, claim_c6_amended "10.0.0.1/16" 2 rfl⟩

/-- C10 (counterexample): for a /32 base the claim's mechanism does not
occur: `subnets` short-circuits (`prefixlen == max_prefixlen` yields the
block itself instead of rejecting the shorter new prefix), and the failure
is the pairing `IndexError`, not the `ValueError('new prefix must be
longer')`. -/
theorem claim_c10_counterexample :
    compute_subnet_cidrs "10.0.0.1/32" 1 = .error .indexError ∧
    PyErr.indexError ≠ PyErr.valueErrorNewPfx := by
  constructor
  · rfl
  · decide

/-- C10 (amended): for every IPv4 base with prefix length in [29, 32] and
every `zoneCount >= 1` the call never succeeds: for prefix lengths 29-31
the enumeration rejects the clamped /28 (`ValueError`), while for /32 the
enumeration returns the base itself and the pairing loop raises
`IndexError`. -/
theorem claim_c10_amended (net : IPNet) (az : Int) (hv : net.version = 4)
    (hp1 : 29 ≤ net.prefixlen) (hp2 : net.prefixlen ≤ 32) (haz : 1 ≤ az) :
    compute_core net az =
      .error (if net.prefixlen = 32 then PyErr.indexError else PyErr.valueErrorNewPfx) := by
  have hmax : net.max_prefixlen = 32 := by simp [IPNet.max_prefixlen, hv]
  have hbits : 1 ≤ codeExtraBits az := by
    unfold codeExtraBits pyBitLengthInt
    exact pyBitLength_pos _ (by omega)
  have hnp : codeNewPrefixlen net az = 28 := by
    simp only [codeNewPrefixlen]
    rw [if_pos (by omega)]
  simp only [compute_core]
  rw [hnp, if_neg (by omega)]
  simp only [IPNet.subnets]
  by_cases h32 : net.prefixlen = 32
  · rw [if_pos (by omega), if_pos h32]
    show pickLoopAux [net] 0 az.toNat = .error .indexError
    obtain ⟨k, hk⟩ : ∃ k, az.toNat = k + 1 := ⟨az.toNat - 1, by omega⟩
    rw [hk, pickLoopAux_succ]
    have e2 : ([net] : List IPNet)[0 * 2 + 1]? = none := rfl
    rw [e2]
    cases ([net] : List IPNet)[0 * 2]? <;> rfl
  · rw [if_neg (by omega), if_pos (by omega), if_neg h32]

/-- Witness for C10 (amended) at the /29 base `10.0.0.8/29` with one
zone. -/
theorem claim_c10_witness :
    compute_core ⟨4, 167772168, 29⟩ 1 =
      .error (if (⟨4, 167772168, 29⟩ : IPNet).prefixlen = 32
        then PyErr.indexError else PyErr.valueErrorNewPfx) :=
  claim_c10_amended ⟨4, 167772168, 29⟩ 1 rfl (by decide) (by decide) (by decide)

/-- Two half-open intervals of the same width `sz` starting at
`A + k * sz` and `A + k' * sz` with `k ≠ k'` cannot share a point. -/
lemma indexed_blocks_disjoint (A sz k k' a : Nat) (hkk : k ≠ k')
    (h1 : A + k * sz ≤ a) (h2 : a < A + k * sz + sz)
    (h3 : A + k' * sz ≤ a) (h4 : a < A + k' * sz + sz) : False := by
  have e1 : (k + 1) * sz = k * sz + sz := Nat.succ_mul k sz
  have e2 : (k' + 1) * sz = k' * sz + sz := Nat.succ_mul k' sz
  rcases Nat.lt_or_ge k k' with hlt | hge
  · have hmul : (k + 1) * sz ≤ k' * sz := Nat.mul_le_mul_right sz hlt
    omega
  · have hlt' : k' + 1 ≤ k := by omega
    have hmul : (k' + 1) * sz ≤ k * sz := Nat.mul_le_mul_right sz hlt'
    omega

/-- A successful pick loop over the enumerated list determines both output
lists: entry `j` is the image of index `2*j` resp. `2*j + 1`, and the last
odd index is within the enumeration. -/
lemma pick_on_map (g : Nat → IPNet) (m n : Nat) (ps qs : List IPNet) (hn : 1 ≤ n)
    (h : pickLoopAux ((List.range m).map g) 0 n = .ok (ps, qs)) :
    (n - 1) * 2 + 1 < m ∧
    ps = (List.range n).map (fun j => g (j * 2)) ∧
    qs = (List.range n).map (fun j => g (j * 2 + 1)) := by
  obtain ⟨hl1, hl2, hidx⟩ := pickLoopAux_ok _ n 0 ps qs h
  have hlast : (n - 1) * 2 + 1 < m := by
    by_contra hcon
    obtain ⟨_, hb⟩ := hidx (n - 1) (by omega)
    have hnone : ((List.range m).map g)[(0 + (n - 1)) * 2 + 1]? = none := by
      apply List.getElem?_eq_none
      simp only [List.length_map, List.length_range]
      omega
    rw [hnone] at hb
    have := List.getElem?_eq_none_iff.mp hb
    omega
  refine ⟨hlast, ?_, ?_⟩
  · apply List.ext_getElem?
    intro j
    by_cases hj : j < n
    · obtain ⟨ha, _⟩ := hidx j hj
      rw [ha]
      have hjm : (0 + j) * 2 < m := by omega
      rw [List.getElem?_map, List.getElem?_range hjm, List.getElem?_map,
        List.getElem?_range hj]
      simp
    · rw [List.getElem?_eq_none (by omega),
        List.getElem?_eq_none (by simp only [List.length_map, List.length_range]; omega)]
  · apply List.ext_getElem?
    intro j
    by_cases hj : j < n
    · obtain ⟨_, hb⟩ := hidx j hj
      rw [hb]
      have hjm : (0 + j) * 2 + 1 < m := by omega
      rw [List.getElem?_map, List.getElem?_range hjm, List.getElem?_map,
        List.getElem?_range hj]
      simp
    · rw [List.getElem?_eq_none (by omega),
        List.getElem?_eq_none (by simp only [List.length_map, List.length_range]; omega)]

/-- C1: for every IPv4 base block and every `zoneCount >= 1` on which
`compute_subnet_cidrs` succeeds, the returned blocks - across public and
private lists, across zones - are pairwise disjoint, each is a sub-block of
the base, and each has prefix length equal to the computed (possibly
clamped) new prefix. -/
theorem claim_c1_partition (s : String) (net : IPNet) (az : Int) (pubs privs : List IPNet)
    (hp : ip_network s = .ok net) (hv : net.version = 4) (hval : net.Valid) (haz : 1 ≤ az)
    (h : compute_core net az = .ok (pubs, privs)) :
    compute_subnet_cidrs s az = .ok (pubs.map netToString, privs.map netToString) ∧
    (pubs ++ privs).Pairwise disjointBlocks ∧
    ∀ b ∈ pubs ++ privs, subBlockOf b net ∧ b.prefixlen = codeNewPrefixlen net az := by
  refine ⟨?_, ?_⟩
  · unfold compute_subnet_cidrs
    rw [hp]
    show (match compute_core net az with
      | .error e => .error e
      | .ok (ps, qs) => .ok (ps.map netToString, qs.map netToString)) =
        Except.ok (pubs.map netToString, privs.map netToString)
    rw [h]
  set np := codeNewPrefixlen net az with hnpdef
  obtain ⟨L, hsub, hpick⟩ := compute_core_ok net az pubs privs h
  have hne : net.prefixlen ≠ net.max_prefixlen := by
    intro hcon
    have hL : L = [net] := by
      unfold IPNet.subnets at hsub
      rw [if_pos hcon] at hsub
      injection hsub with hsub
      exact hsub.symm
    subst hL
    have hfail := pickLoopAux_fail [net] az.toNat 0 (by omega)
      (by simp only [List.length_cons, List.length_nil]; omega)
    rw [hpick] at hfail
    exact absurd hfail (by simp)
  obtain ⟨hple, hnple, hLdef⟩ := subnets_ok net np L hne hsub
  rw [hLdef] at hpick
  obtain ⟨hlast, hps, hqs⟩ := pick_on_map (enumBlock net np)
    (2 ^ (np - net.prefixlen)) az.toNat pubs privs (by omega) hpick
  have haddr : ∀ k, (enumBlock net np k).addr =
      net.addr + k * 2 ^ (net.max_prefixlen - np) := fun k => rfl
  have hsz : ∀ k, (enumBlock net np k).blockSize =
      2 ^ (net.max_prefixlen - np) := fun k => rfl
  have hdisjf : ∀ k k', k ≠ k' →
      disjointBlocks (enumBlock net np k) (enumBlock net np k') := by
    intro k k' hkk a hcon
    obtain ⟨h1, h2⟩ := hcon
    simp only [IPNet.containsAddr] at h1 h2
    rw [haddr, hsz] at h1 h2
    exact indexed_blocks_disjoint net.addr (2 ^ (net.max_prefixlen - np)) k k' a hkk
      h1.1 h1.2 h2.1 h2.2
  have hcomb : pubs ++ privs =
      ((List.range az.toNat).map (fun j => enumBlock net np (j * 2))) ++
      ((List.range az.toNat).map (fun j => enumBlock net np (j * 2 + 1))) := by
    rw [hps, hqs]
  constructor
  · rw [hcomb, List.pairwise_append]
    refine ⟨?_, ?_, ?_⟩
    · rw [List.pairwise_map]
      exact (List.pairwise_lt_range az.toNat).imp (fun hab => hdisjf _ _ (by omega))
    · rw [List.pairwise_map]
      exact (List.pairwise_lt_range az.toNat).imp (fun hab => hdisjf _ _ (by omega))
    · intro x hx y hy
      obtain ⟨jx, hjx, hfx⟩ := List.mem_map.mp hx
      obtain ⟨jy, hjy, hfy⟩ := List.mem_map.mp hy
      subst hfx
      subst hfy
      exact hdisjf _ _ (by omega)
  · intro b hb
    rw [hcomb] at hb
    have hk : ∃ k, k < 2 ^ (np - net.prefixlen) ∧ b = enumBlock net np k := by
      rcases List.mem_append.mp hb with hbm | hbm
      · obtain ⟨j, hj, hfj⟩ := List.mem_map.mp hbm
        have hjn : j < az.toNat := List.mem_range.mp hj
        exact ⟨j * 2, by omega, hfj.symm⟩
      · obtain ⟨j, hj, hfj⟩ := List.mem_map.mp hbm
        have hjn : j < az.toNat := List.mem_range.mp hj
        exact ⟨j * 2 + 1, by omega, hfj.symm⟩
    obtain ⟨k, hk2, hbk⟩ := hk
    subst hbk
    refine ⟨?_, rfl⟩
    intro a hca
    simp only [IPNet.containsAddr] at hca ⊢
    rw [haddr, hsz] at hca
    simp only [IPNet.blockSize]
    have hmul : (k + 1) * 2 ^ (net.max_prefixlen - np) ≤
        2 ^ (np - net.prefixlen) * 2 ^ (net.max_prefixlen - np) :=
      Nat.mul_le_mul_right _ (by omega)
    have hpow : 2 ^ (np - net.prefixlen) * 2 ^ (net.max_prefixlen - np) =
        2 ^ (net.max_prefixlen - net.prefixlen) := by
      rw [← pow_add]
      congr 1
      omega
    have e1 : (k + 1) * 2 ^ (net.max_prefixlen - np) =
        k * 2 ^ (net.max_prefixlen - np) + 2 ^ (net.max_prefixlen - np) :=
      Nat.succ_mul k _
    constructor
    · omega
    · omega

/-- Witness for C1: the `10.0.0.0/16`, two-zone plan. -/
theorem claim_c1_witness :
    compute_subnet_cidrs "10.0.0.0/16" 2 =
      .ok (([⟨4, 167772160, 18⟩, ⟨4, 167804928, 18⟩] : List IPNet).map netToString,
        ([⟨4, 167788544, 18⟩, ⟨4, 167821312, 18⟩] : List IPNet).map netToString) ∧
    (([⟨4, 167772160, 18⟩, ⟨4, 167804928, 18⟩] ++
      [⟨4, 167788544, 18⟩, ⟨4, 167821312, 18⟩] : List IPNet).Pairwise disjointBlocks) ∧
    ∀ b ∈ ([⟨4, 167772160, 18⟩, ⟨4, 167804928, 18⟩] ++
      [⟨4, 167788544, 18⟩, ⟨4, 167821312, 18⟩] : List IPNet),
      subBlockOf b ⟨4, 167772160, 16⟩ ∧
      b.prefixlen = codeNewPrefixlen ⟨4, 167772160, 16⟩ 2 :=
  claim_c1_partition "10.0.0.0/16" ⟨4, 167772160, 16⟩ 2 _ _ rfl rfl (by decide)
    (by decide) (by decide)
